import Mathlib

/-!
# plextoslack: the Plex webhook to Slack webhook bridge (app.go)

A shallow embedding of `app.go`: the data model (`PlexMessage`, `SlackMessage`,
`SlackAttachment`), the composer `createSlackMessage` and the request handler
`handlePlexMessage`, followed by the properties of the composer, of the delivery
gate and of the JSON form of the outbound notification.

Go strings are modelled by `String` (the handler only ever sees strings produced by
`json.Unmarshal`, which are valid UTF-8), `int16`/`int32` fields by `Int`.
The process environment, the decoder of the inbound payload, `http.NewRequest` and
the HTTP transport are library code: they are parameters of the model (`World`).
The serialization of the outbound notification is modelled in full (`Marshal`), with
the matching decoder (`Unmarshal`).
-/

namespace PlexToSlack

/-! ## Event enumerations (app.go, lines 17-24) -/

def play : String := "media.play"
def pause : String := "media.pause"
def resume : String := "media.resume"
def stop : String := "media.stop"
def viewed : String := "media.scrobble"
def rated : String := "media.rate"

/-! ## Data model (app.go, lines 28-104) -/

structure PlexAccount where
  Id : Int := 0
  Thumb : String := ""
  Title : String := ""
deriving DecidableEq, Repr

structure PlexServer where
  Title : String := ""
  Uuid : String := ""
deriving DecidableEq, Repr

structure PlexPlayer where
  Local : Bool := false
  PublicAddress : String := ""
  Title : String := ""
  Uuid : String := ""
deriving DecidableEq, Repr

structure PlexMetadata where
  LibrarySectionType : String := ""
  LibrarySectionTitle : String := ""
  RatingKey : String := ""
  Key : String := ""
  ParentRatingKey : String := ""
  GrandparentRatingKey : String := ""
  Guid : String := ""
  LibrarySectionID : Int := 0
  MediaType : String := ""
  Title : String := ""
  GrandparentKey : String := ""
  GrandparentTitle : String := ""
  ParentTitle : String := ""
  Summary : String := ""
  Index : Int := 0
  ParentIndex : Int := 0
  RatingCount : Int := 0
  Thumb : String := ""
  Art : String := ""
  ParentThumb : String := ""
  GrandparentThumb : String := ""
  GrandparentArt : String := ""
  AddedAt : Int := 0
  UpdatedAt : Int := 0
deriving DecidableEq, Repr

structure PlexMessage where
  Event : String := ""
  User : Bool := false
  Owner : Bool := false
  Account : PlexAccount := {}
  Server : PlexServer := {}
  Player : PlexPlayer := {}
  Metadata : PlexMetadata := {}
deriving DecidableEq, Repr

structure SlackAttachment where
  Fallback : String := ""
  Color : String := ""
  Pretext : String := ""
  Author_name : String := ""
  Author_link : String := ""
  Author_icon : String := ""
  Title : String := ""
  Title_link : String := ""
  Text : String := ""
  Image_url : String := ""
  Thumb_url : String := ""
  Footer : String := ""
  Footer_icon : String := ""
  Ts : Int := 0
deriving DecidableEq, Repr

structure SlackMessage where
  Username : String := ""
  Attachments : List SlackAttachment := []
  Send : String := ""
deriving DecidableEq, Repr

/-! ## The process environment -/

/-- The process environment: the value bound to each variable name, if any. -/
abbrev Environ := String → Option String

/-- Go `os.Getenv`: the value of the variable, the empty string when it is not set. -/
def Getenv (env : Environ) (key : String) : String :=
  (env key).getD ""

/-! ## createSlackMessage (app.go, lines 107-159) -/

/-- The local `title` of `createSlackMessage` (lines 114-118). -/
def displayTitle (message : PlexMessage) : String :=
  if message.Metadata.MediaType = "episode" then
    message.Metadata.Title ++ " from " ++ message.Metadata.ParentTitle ++ " of "
      ++ message.Metadata.GrandparentTitle
  else
    message.Metadata.Title

/-- The `switch message.Event` of `createSlackMessage` (lines 120-145): the values of
`m.Send`, `a.Title` and `a.Color` after the switch, starting from `m.Send = "false"` and
the zero attachment. -/
def eventSwitch (env : Environ) (event title : String) : String × String × String :=
  if event = play then (Getenv env "SEND_PLAY", "Started watching " ++ title, "good")
  else if event = pause then (Getenv env "SEND_PAUSE", "Paused " ++ title, "warning")
  else if event = resume then (Getenv env "SEND_RESUME", "Continued watching " ++ title, "good")
  else if event = stop then (Getenv env "SEND_STOP", "Stopped watching " ++ title, "danger")
  else if event = viewed then (Getenv env "SEND_VIEWED", "Finished watching " ++ title, "danger")
  else if event = rated then (Getenv env "SEND_RATED", "Rated " ++ title, "#439FE0")
  else ("false", "", "")

/-- Convert a Plex webhook to a Slack webhook. -/
def createSlackMessage (env : Environ) (message : PlexMessage) : SlackMessage :=
  let title := displayTitle message
  let sw := eventSwitch env message.Event title
  let a : SlackAttachment :=
    { Title := sw.2.1
      Color := sw.2.2
      Author_name := message.Account.Title
      Author_icon := message.Account.Thumb
      Text := message.Metadata.Summary
      Footer := "Played from " ++ message.Metadata.LibrarySectionTitle ++ " on "
        ++ message.Player.Title
      Fallback := "Fallback message" }
  { Username := "Plex", Attachments := [a], Send := sw.1 }

/-! ## JSON: the serialization of the notification (encoding/json) -/

/-!
The handler serializes the notification with `json.Marshal` (line 179). `Marshal` below
writes the document that encoding/json writes for a `SlackMessage`; `Unmarshal` is the
decoder of encoding/json for the same type: a JSON parser followed by the assignment of
the members to the fields. A document is a text of Unicode characters.
-/

/-! ### Strings -/

/-- The digit of `0123456789abcdef` at position `n`. -/
def hexDigit (n : Nat) : Char :=
  if n < 10 then Char.ofNat (48 + n) else Char.ofNat (87 + n)

/-- What `json.Marshal` writes for one character of a string: a backslash before the
quote and the backslash, `\n`, `\r`, `\t`, the form `\u00XY` for the other control
characters and for `<`, `>` and `&`, the forms `\u2028` and `\u2029` for the two line
separators, and the character itself otherwise. (From Go 1.22 on, U+0008 and U+000C are
written `\b` and `\f`; `unescape` reads both forms back to the same characters.) -/
def escapeChar (c : Char) : List Char :=
  if c = '"' ∨ c = '\\' then ['\\', c]
  else if c = '\n' then ['\\', 'n']
  else if c = '\r' then ['\\', 'r']
  else if c = '\t' then ['\\', 't']
  else if c.toNat < 32 ∨ c = '<' ∨ c = '>' ∨ c = '&' then
    ['\\', 'u', '0', '0', hexDigit (c.toNat / 16), hexDigit (c.toNat % 16)]
  else if c.toNat = 8232 ∨ c.toNat = 8233 then
    ['\\', 'u', '2', '0', '2', hexDigit (c.toNat % 16)]
  else [c]

/-- The escaped form of the characters of a string. -/
def escapeChars : List Char → List Char
  | [] => []
  | c :: cs => escapeChar c ++ escapeChars cs

/-- The value of a hexadecimal digit, in either case. -/
def hexValue (c : Char) : Option Nat :=
  if 48 ≤ c.toNat ∧ c.toNat ≤ 57 then some (c.toNat - 48)
  else if 97 ≤ c.toNat ∧ c.toNat ≤ 102 then some (c.toNat - 87)
  else if 65 ≤ c.toNat ∧ c.toNat ≤ 70 then some (c.toNat - 55)
  else none

/-- The code unit written by four hexadecimal digits, as `getu4` of encoding/json. -/
def getu4 (a b c d : Char) : Option Nat :=
  match hexValue a, hexValue b, hexValue c, hexValue d with
  | some x, some y, some z, some w => some (((x * 16 + y) * 16 + z) * 16 + w)
  | _, _, _, _ => none

/-- Go `utf16.IsSurrogate`. -/
def isSurrogate (r : Nat) : Bool := 55296 ≤ r ∧ r < 57344

/-- Go `utf16.DecodeRune`: the code point of a surrogate pair, if the pair is valid. -/
def decodeRune (r1 r2 : Nat) : Option Nat :=
  if 55296 ≤ r1 ∧ r1 < 56320 ∧ 56320 ≤ r2 ∧ r2 < 57344 then
    some ((r1 - 55296) * 1024 + (r2 - 56320) + 65536)
  else none

/-- The Unicode replacement character U+FFFD. -/
def replacementChar : Char := Char.ofNat 65533

/-- The character a one-letter escape stands for. -/
def unescape (e : Char) : Option Char :=
  if e = '"' ∨ e = '\\' ∨ e = '/' then some e
  else if e = 'b' then some (Char.ofNat 8)
  else if e = 'f' then some (Char.ofNat 12)
  else if e = 'n' then some '\n'
  else if e = 'r' then some '\r'
  else if e = 't' then some '\t'
  else none

/-- Put a character in front of the string read so far. -/
def pushChar (c : Char) (r : Option (List Char × List Char)) : Option (List Char × List Char) :=
  r.map fun p => (c :: p.1, p.2)

/-- After a surrogate escape: the code point of the pair it forms with the `\u` escape
that follows, and the text after that escape, when the pair is valid. -/
def lowSurrogate (rr : Nat) (cs : List Char) : Option (Nat × List Char) :=
  match cs with
  | b :: u :: g1 :: g2 :: g3 :: g4 :: cs3 =>
    if b = '\\' ∧ u = 'u' then
      ((getu4 g1 g2 g3 g4).bind (decodeRune rr)).map fun dec => (dec, cs3)
    else none
  | _ => none

/-- Read what follows a backslash inside a string: the character it stands for and the
rest of the text. A surrogate that is not half of a valid pair is read as U+FFFD. -/
def escapeStep (cs : List Char) : Option (Char × List Char) :=
  match cs with
  | [] => none
  | e :: cs1 =>
    if e = 'u' then
      match cs1 with
      | h1 :: h2 :: h3 :: h4 :: cs2 =>
        match getu4 h1 h2 h3 h4 with
        | none => none
        | some rr =>
          if isSurrogate rr then
            match lowSurrogate rr cs2 with
            | some (dec, cs3) => some (Char.ofNat dec, cs3)
            | none => some (replacementChar, cs2)
          else some (Char.ofNat rr, cs2)
      | _ => none
    else
      (unescape e).map fun ch => (ch, cs1)

/-- Read a string up to its closing quote: the characters of the string and the text
after the quote. The first argument bounds the number of steps. -/
def parseStringBody : Nat → List Char → Option (List Char × List Char)
  | 0, _ => none
  | _, [] => none
  | n + 1, c :: cs =>
    if c = '"' then some ([], cs)
    else if c = '\\' then
      match escapeStep cs with
      | some (ch, rest) => pushChar ch (parseStringBody n rest)
      | none => none
    else if c.toNat < 32 then none
    else pushChar c (parseStringBody n cs)

/-- Read a string whose opening quote has been consumed. -/
def parseString (cs : List Char) : Option (List Char × List Char) :=
  parseStringBody cs.length cs

/-! ### JSON values and the parser -/

/-- A JSON value. A number keeps its literal, which the decoder of the target field
converts. -/
inductive Json where
  | null
  | bool (b : Bool)
  | number (lit : String)
  | string (s : String)
  | array (xs : List Json)
  | object (members : List (String × Json))

/-- The four white space characters of JSON. -/
def isSpace (c : Char) : Bool :=
  c = ' ' ∨ c = '\t' ∨ c = '\r' ∨ c = '\n'

/-- Drop leading white space. -/
def skipSpace : List Char → List Char
  | [] => []
  | c :: cs => if isSpace c then skipSpace cs else c :: cs

/-- Split the text after its leading decimal digits. -/
def takeDigits : List Char → List Char × List Char
  | [] => ([], [])
  | c :: cs => if c.isDigit then ((c :: (takeDigits cs).1), (takeDigits cs).2) else ([], c :: cs)

/-- The integer part of a number: `0`, or a nonzero digit followed by digits. -/
def parseIntPart (cs : List Char) : Option (List Char × List Char) :=
  match cs with
  | [] => none
  | c :: r =>
    if c = '0' then some (['0'], r)
    else if c.isDigit then some (c :: (takeDigits r).1, (takeDigits r).2)
    else none

/-- One digit or more. -/
def parseDigits1 (cs : List Char) : Option (List Char × List Char) :=
  if (takeDigits cs).1 = [] then none else some (takeDigits cs)

/-- The optional fraction of a number. -/
def parseFrac (cs : List Char) : Option (List Char × List Char) :=
  match cs with
  | [] => some ([], [])
  | c :: r =>
    if c = '.' then (parseDigits1 r).map fun p => (c :: p.1, p.2)
    else some ([], c :: r)

/-- The optional exponent of a number. -/
def parseExp (cs : List Char) : Option (List Char × List Char) :=
  match cs with
  | [] => some ([], [])
  | c :: r =>
    if c = 'e' ∨ c = 'E' then
      match r with
      | [] => none
      | s :: r1 =>
        if s = '+' ∨ s = '-' then (parseDigits1 r1).map fun p => (c :: s :: p.1, p.2)
        else (parseDigits1 (s :: r1)).map fun p => (c :: p.1, p.2)
    else some ([], c :: r)

/-- A number literal without its sign. -/
def parseUnsigned (cs : List Char) : Option (List Char × List Char) :=
  (parseIntPart cs).bind fun i =>
    (parseFrac i.2).bind fun f =>
      (parseExp f.2).map fun e => (i.1 ++ f.1 ++ e.1, e.2)

/-- A number literal: its characters and the text after it. -/
def parseNumber (cs : List Char) : Option (List Char × List Char) :=
  match cs with
  | [] => none
  | c :: r =>
    if c = '-' then (parseUnsigned r).map fun p => (c :: p.1, p.2)
    else parseUnsigned (c :: r)

/-- Consume the given characters from the front of the text. -/
def stripLiteral : List Char → List Char → Option (List Char)
  | [], cs => some cs
  | _ :: _, [] => none
  | l :: ls, c :: cs => if l = c then stripLiteral ls cs else none

/-- The elements of a nonempty array, up to the closing bracket, each read by `pv`. -/
def parseElements (pv : List Char → Option (Json × List Char)) :
    Nat → List Char → Option (List Json × List Char)
  | 0, _ => none
  | k + 1, cs =>
    match pv cs with
    | none => none
    | some (v, r) =>
      match skipSpace r with
      | [] => none
      | d :: r1 =>
        if d = ',' then (parseElements pv k r1).map fun p => (v :: p.1, p.2)
        else if d = ']' then some ([v], r1)
        else none

/-- The members of a nonempty object, up to the closing brace, each value read by `pv`. -/
def parseMembers (pv : List Char → Option (Json × List Char)) :
    Nat → List Char → Option (List (String × Json) × List Char)
  | 0, _ => none
  | k + 1, cs =>
    match skipSpace cs with
    | [] => none
    | q :: r =>
      if q = '"' then
        match parseString r with
        | none => none
        | some (key, r1) =>
          match skipSpace r1 with
          | [] => none
          | colon :: r2 =>
            if colon = ':' then
              match pv r2 with
              | none => none
              | some (v, r3) =>
                match skipSpace r3 with
                | [] => none
                | d :: r4 =>
                  if d = ',' then
                    (parseMembers pv k r4).map fun p => ((String.mk key, v) :: p.1, p.2)
                  else if d = '}' then some ([(String.mk key, v)], r4)
                  else none
            else none
      else none

/-- Read one JSON value: the value and the text after it. The first argument bounds the
nesting depth and the number of members of an object or array. -/
def parseValue : Nat → List Char → Option (Json × List Char)
  | 0, _ => none
  | n + 1, cs =>
    match skipSpace cs with
    | [] => none
    | c :: r =>
      if c = '{' then
        match skipSpace r with
        | [] => none
        | d :: r1 =>
          if d = '}' then some (Json.object [], r1)
          else (parseMembers (parseValue n) n (d :: r1)).map fun p => (Json.object p.1, p.2)
      else if c = '[' then
        match skipSpace r with
        | [] => none
        | d :: r1 =>
          if d = ']' then some (Json.array [], r1)
          else (parseElements (parseValue n) n (d :: r1)).map fun p => (Json.array p.1, p.2)
      else if c = '"' then
        (parseString r).map fun p => (Json.string (String.mk p.1), p.2)
      else if c = 't' then (stripLiteral ['r', 'u', 'e'] r).map fun r1 => (Json.bool true, r1)
      else if c = 'f' then
        (stripLiteral ['a', 'l', 's', 'e'] r).map fun r1 => (Json.bool false, r1)
      else if c = 'n' then (stripLiteral ['u', 'l', 'l'] r).map fun r1 => (Json.null, r1)
      else (parseNumber (c :: r)).map fun p => (Json.number (String.mk p.1), p.2)

/-- Parse a whole document: one value, with nothing but white space after it. -/
def parseDocument (text : String) : Option Json :=
  match parseValue (text.length + 1) text.data with
  | none => none
  | some (v, rest) => if skipSpace rest = [] then some v else none

/-! ### Marshal -/

/-- The JSON string for a Go string. -/
def encodeString (s : String) : List Char :=
  '"' :: escapeChars s.data ++ ['"']

/-- The JSON number for a Go integer: its decimal digits, after a minus sign when negative. -/
def encodeInt (i : Int) : List Char :=
  if i < 0 then '-' :: Nat.toDigits 10 i.natAbs else Nat.toDigits 10 i.natAbs

/-- The members of an object, separated by commas. -/
def encodeMembers : List (String × List Char) → List Char
  | [] => []
  | [(k, v)] => encodeString k ++ ':' :: v
  | (k, v) :: m :: ms => encodeString k ++ ':' :: v ++ ',' :: encodeMembers (m :: ms)

/-- A JSON object with the given keys and encoded values. -/
def encodeObject (members : List (String × List Char)) : List Char :=
  '{' :: encodeMembers members ++ ['}']

/-- The elements of an array, separated by commas. -/
def encodeElements : List (List Char) → List Char
  | [] => []
  | [v] => v
  | v :: w :: ws => v ++ ',' :: encodeElements (w :: ws)

/-- The JSON object of a `SlackAttachment`: every field, under the key of its `json` tag,
in the order of the declaration (app.go, lines 89-104). -/
def encodeAttachment (a : SlackAttachment) : List Char :=
  encodeObject
    [ ("fallback", encodeString a.Fallback),
      ("color", encodeString a.Color),
      ("pretext", encodeString a.Pretext),
      ("author_name", encodeString a.Author_name),
      ("author_link", encodeString a.Author_link),
      ("author_icon", encodeString a.Author_icon),
      ("title", encodeString a.Title),
      ("title_link", encodeString a.Title_link),
      ("text", encodeString a.Text),
      ("image_url", encodeString a.Image_url),
      ("thumb_url", encodeString a.Thumb_url),
      ("footer", encodeString a.Footer),
      ("footer_icon", encodeString a.Footer_icon),
      ("ts", encodeInt a.Ts) ]

/-- The JSON value of the `Attachments` slice: `null` for the nil slice (the empty list),
an array otherwise. -/
def encodeAttachments (as : List SlackAttachment) : List Char :=
  match as with
  | [] => ['n', 'u', 'l', 'l']
  | a :: rest => '[' :: encodeElements ((a :: rest).map encodeAttachment) ++ [']']

/-- Go `json.Marshal` of a `SlackMessage` (app.go, lines 83-87): `Send` has no tag and is
written under its field name. -/
def Marshal (s : SlackMessage) : String :=
  String.mk (encodeObject
    [ ("username", encodeString s.Username),
      ("attachments", encodeAttachments s.Attachments),
      ("Send", encodeString s.Send) ])

/-! ### Unmarshal into SlackMessage -/

/-- Case folding of a key character against an ASCII field name: upper case ASCII letters,
the Kelvin sign and the long s go to their lower case ASCII letter. -/
def foldChar (c : Char) : Char :=
  if 65 ≤ c.toNat ∧ c.toNat ≤ 90 then Char.ofNat (c.toNat + 32)
  else if c.toNat = 8490 then 'k'
  else if c.toNat = 383 then 's'
  else c

/-- Case-insensitive match of a key and a field name. -/
def equalFold (a b : String) : Bool :=
  a.data.map foldChar = b.data.map foldChar

/-- The field a key is decoded into: the field with exactly this name, or else the first
field whose name matches it case-insensitively; none when no field matches. -/
def findField (names : List String) (key : String) : Option String :=
  match names.find? (fun n => n = key) with
  | some n => some n
  | none => names.find? (fun n => equalFold n key)

/-- The number written by decimal digits. -/
def digitsValue (ds : List Char) : Nat :=
  ds.foldl (fun acc d => acc * 10 + (d.toNat - 48)) 0

/-- Go `strconv.ParseInt(lit, 10, 32)` on a JSON number literal: only an optional minus
sign and digits are accepted, and the value has to fit 32 bits. -/
def parseInt32 (lit : String) : Option Int :=
  let body := match lit.data with
    | [] => []
    | c :: r => if c = '-' then r else c :: r
  let v : Int := match lit.data with
    | [] => 0
    | c :: _ => if c = '-' then - (digitsValue body : Int) else (digitsValue body : Int)
  if body ≠ [] ∧ body.all Char.isDigit ∧ -2147483648 ≤ v ∧ v ≤ 2147483647 then some v else none

/-- Decode a JSON value into a string field: `null` leaves the field as it is. -/
def decodeString (old : String) : Json → Except String String
  | Json.string s => Except.ok s
  | Json.null => Except.ok old
  | _ => Except.error "json: cannot unmarshal value into Go value of type string"

/-- Decode a JSON value into an `int32` field: `null` leaves the field as it is. -/
def decodeInt32 (old : Int) : Json → Except String Int
  | Json.number lit =>
    match parseInt32 lit with
    | some i => Except.ok i
    | none => Except.error "json: cannot unmarshal number into Go value of type int32"
  | Json.null => Except.ok old
  | _ => Except.error "json: cannot unmarshal value into Go value of type int32"

/-- Decode the members of an object into a struct, in order: a key that matches no field
is skipped, and the first value that does not fit its field is the error. -/
def decodeMembers {σ : Type} (names : List String) (set : σ → String → Json → Except String σ) :
    List (String × Json) → σ → Except String σ
  | [], acc => Except.ok acc
  | (k, v) :: rest, acc =>
    match findField names k with
    | none => decodeMembers names set rest acc
    | some f =>
      match set acc f v with
      | Except.ok acc1 => decodeMembers names set rest acc1
      | Except.error e => Except.error e

/-- The JSON names of the fields of `SlackAttachment`. -/
def attachmentFields : List String :=
  ["fallback", "color", "pretext", "author_name", "author_link", "author_icon", "title",
    "title_link", "text", "image_url", "thumb_url", "footer", "footer_icon", "ts"]

/-- Decode a value into the named field of an attachment. -/
def setAttachmentField (a : SlackAttachment) (field : String) (v : Json) :
    Except String SlackAttachment :=
  if field = "fallback" then (decodeString a.Fallback v).map fun x => { a with Fallback := x }
  else if field = "color" then (decodeString a.Color v).map fun x => { a with Color := x }
  else if field = "pretext" then (decodeString a.Pretext v).map fun x => { a with Pretext := x }
  else if field = "author_name" then
    (decodeString a.Author_name v).map fun x => { a with Author_name := x }
  else if field = "author_link" then
    (decodeString a.Author_link v).map fun x => { a with Author_link := x }
  else if field = "author_icon" then
    (decodeString a.Author_icon v).map fun x => { a with Author_icon := x }
  else if field = "title" then (decodeString a.Title v).map fun x => { a with Title := x }
  else if field = "title_link" then
    (decodeString a.Title_link v).map fun x => { a with Title_link := x }
  else if field = "text" then (decodeString a.Text v).map fun x => { a with Text := x }
  else if field = "image_url" then
    (decodeString a.Image_url v).map fun x => { a with Image_url := x }
  else if field = "thumb_url" then
    (decodeString a.Thumb_url v).map fun x => { a with Thumb_url := x }
  else if field = "footer" then (decodeString a.Footer v).map fun x => { a with Footer := x }
  else if field = "footer_icon" then
    (decodeString a.Footer_icon v).map fun x => { a with Footer_icon := x }
  else if field = "ts" then (decodeInt32 a.Ts v).map fun x => { a with Ts := x }
  else Except.ok a

/-- Decode a JSON value into a `SlackAttachment`. -/
def decodeAttachment (old : SlackAttachment) : Json → Except String SlackAttachment
  | Json.object members => decodeMembers attachmentFields setAttachmentField members old
  | Json.null => Except.ok old
  | _ => Except.error "json: cannot unmarshal value into Go value of type main.SlackAttachment"

/-- Decode the elements of an array, each into a zero attachment. -/
def decodeElements : List Json → Except String (List SlackAttachment)
  | [] => Except.ok []
  | v :: vs =>
    match decodeAttachment {} v with
    | Except.error e => Except.error e
    | Except.ok a => (decodeElements vs).map fun rest => a :: rest

/-- Decode a JSON value into the `Attachments` slice. -/
def decodeAttachments (old : List SlackAttachment) : Json → Except String (List SlackAttachment)
  | Json.array xs => decodeElements xs
  | Json.null => Except.ok old
  | _ => Except.error "json: cannot unmarshal value into Go value of type []main.SlackAttachment"

/-- The JSON names of the fields of `SlackMessage`. -/
def messageFields : List String := ["username", "attachments", "Send"]

/-- Decode a value into the named field of a message. -/
def setMessageField (m : SlackMessage) (field : String) (v : Json) : Except String SlackMessage :=
  if field = "username" then (decodeString m.Username v).map fun x => { m with Username := x }
  else if field = "attachments" then
    (decodeAttachments m.Attachments v).map fun x => { m with Attachments := x }
  else if field = "Send" then (decodeString m.Send v).map fun x => { m with Send := x }
  else Except.ok m

/-- Decode a JSON value into a `SlackMessage`. -/
def decodeMessage (old : SlackMessage) : Json → Except String SlackMessage
  | Json.object members => decodeMembers messageFields setMessageField members old
  | Json.null => Except.ok old
  | _ => Except.error "json: cannot unmarshal value into Go value of type main.SlackMessage"

/-- Go `json.Unmarshal` of a document into a zero `SlackMessage`. -/
def Unmarshal (text : String) : Except String SlackMessage :=
  match parseDocument text with
  | none => Except.error "invalid character in JSON document"
  | some v => decodeMessage {} v

/-! ## handlePlexMessage (app.go, lines 162-197) -/

/-- The inbound request as the handler sees it after `r.ParseMultipartForm`:
`MultipartForm` is nil (`none`) when the request carries no multipart form, otherwise
the `Value` map of the form, from a field name to the values sent for it. -/
structure Request where
  MultipartForm : Option (String → List String)

/-- The request built by `http.NewRequest` and completed by `req.Header.Set`. -/
structure OutboundRequest where
  Method : String
  URL : String
  Header : List (String × String)
  Body : String
deriving DecidableEq

/-- The response of the HTTP client, as far as the handler prints it. -/
structure Response where
  Status : String
  Header : String
  Body : String
deriving DecidableEq

/-- The library code the handler calls into. -/
structure World where
  /-- The process environment read by `os.Getenv`. -/
  environ : Environ
  /-- `json.Unmarshal` of the payload into a `PlexMessage`: the decoded message, or the
  error it reports. -/
  UnmarshalPayload : String → Except String PlexMessage
  /-- The error `http.NewRequest(method, url, body)` returns, if any: the method is not a
  valid token or `url.Parse` rejects the URL. The request it returns is then nil. -/
  NewRequestError : String → String → Option String
  /-- `client.Do`: the response, or the transport error. -/
  ClientDo : OutboundRequest → Except String Response

/-- What the handler does that is visible outside it, in order. -/
inductive Effect where
  | logged (line : String)
  | printed (line : String)
  | outbound (req : OutboundRequest)
deriving DecidableEq

/-- The ways the handler panics. -/
inductive Failure where
  | nilDereference
  | indexOutOfRange
  | decodeError (err : String)
  | dispatchError (err : String)
deriving DecidableEq

/-- One run of the handler: its effects, and the panic that ended it, if any. -/
structure Outcome where
  effects : List Effect
  failure : Option Failure
deriving DecidableEq

/-- Handle the inbound, multipart webhook. -/
def handlePlexMessage (w : World) (r : Request) : Outcome :=
  match r.MultipartForm with
  | none => { effects := [], failure := some Failure.nilDereference }
  | some form =>
    match form "payload" with
    | [] => { effects := [], failure := some Failure.indexOutOfRange }
    | payload :: _ =>
      match w.UnmarshalPayload payload with
      | Except.error err =>
        { effects := [Effect.logged payload, Effect.logged ("Covert error: " ++ err)],
          failure := some (Failure.decodeError err) }
      | Except.ok m =>
        let s := createSlackMessage w.environ m
        let url := Getenv w.environ "SLACK_URL"
        let json := Marshal s
        let before := [Effect.logged payload, Effect.printed ("URL:> " ++ url), Effect.logged json]
        match w.NewRequestError "POST" url with
        | some _ => { effects := before, failure := some Failure.nilDereference }
        | none =>
          let req : OutboundRequest :=
            { Method := "POST", URL := url,
              Header := [("Content-Type", "application/json")], Body := json }
          if s.Send = "true" then
            match w.ClientDo req with
            | Except.error err =>
              { effects := before ++ [Effect.outbound req],
                failure := some (Failure.dispatchError err) }
            | Except.ok resp =>
              { effects := before ++
                  [Effect.outbound req,
                   Effect.printed ("response Status: " ++ resp.Status),
                   Effect.printed ("response Headers: " ++ resp.Header),
                   Effect.printed ("response Body: " ++ resp.Body)],
                failure := none }
          else { effects := before, failure := none }

/-- The outbound calls of a run, in order. -/
def outboundCalls (o : Outcome) : List OutboundRequest :=
  o.effects.filterMap fun e =>
    match e with
    | Effect.outbound req => some req
    | _ => none

/-! ## The table of the specification and sample inputs -/

/-- The static table of section 4.2 of the specification: action identifier, headline
verb and colour. -/
def headlineTable : List (String × String × String) :=
  [ ("media.play", "Started watching ", "good"),
    ("media.pause", "Paused ", "warning"),
    ("media.resume", "Continued watching ", "good"),
    ("media.stop", "Stopped watching ", "danger"),
    ("media.scrobble", "Finished watching ", "danger"),
    ("media.rate", "Rated ", "#439FE0") ]

/-- The name of the toggle of each recognized action. -/
def toggleTable : List (String × String) :=
  [ ("media.play", "SEND_PLAY"),
    ("media.pause", "SEND_PAUSE"),
    ("media.resume", "SEND_RESUME"),
    ("media.stop", "SEND_STOP"),
    ("media.scrobble", "SEND_VIEWED"),
    ("media.rate", "SEND_RATED") ]

/-- An environment given by a list of bindings. -/
def environOf (bindings : List (String × String)) : Environ :=
  fun key => bindings.lookup key

/-- Scenario 1: an episode that starts playing. -/
def pilotMessage : PlexMessage :=
  { Event := "media.play",
    Metadata :=
      { MediaType := "episode", Title := "Pilot", ParentTitle := "Season 1",
        GrandparentTitle := "Show X" } }

/-- Scenario 3: a movie that is rated. -/
def movieMessage : PlexMessage :=
  { Event := "media.rate", Metadata := { MediaType := "movie", Title := "Movie Y" } }

/-- Scenario 4: an action outside the six recognized ones. -/
def seekMessage : PlexMessage :=
  { Event := "media.seek", Metadata := { MediaType := "movie", Title := "Movie Y" } }

/-- The decoder of the sample worlds. On the three payloads below it answers as
`json.Unmarshal` does; every other text is taken for the text `not json`, on which
`json.Unmarshal` reports this error. -/
def sampleUnmarshal (payload : String) : Except String PlexMessage :=
  if payload = "\x7b\"event\":\"media.play\"\x7d" then Except.ok { Event := "media.play" }
  else if payload = "\x7b\"event\":\"media.pause\"\x7d" then Except.ok { Event := "media.pause" }
  else if payload = "\x7b\"event\":\"media.rate\"\x7d" then Except.ok { Event := "media.rate" }
  else Except.error "invalid character 'o' in literal null (expecting 'u')"

/-- The first check of `url.Parse` on the scheme: a URL that starts with a colon is
rejected (`missing protocol scheme`). -/
def missingScheme (url : String) : Bool :=
  url.data.head? = some ':'

/-- A world over the given bindings, in which `http.NewRequest` rejects the URLs that
start with a colon and the transport answers 200. -/
def sampleWorld (bindings : List (String × String)) : World :=
  { environ := environOf bindings
    UnmarshalPayload := sampleUnmarshal
    NewRequestError := fun _ url =>
      if missingScheme url then some ("parse \"" ++ url ++ "\": missing protocol scheme")
      else none
    ClientDo := fun _ => Except.ok { Status := "200 OK", Header := "map[]", Body := "ok" } }

/-- A request whose multipart form carries the given payload. -/
def requestWith (payload : String) : Request :=
  { MultipartForm := some fun field => if field = "payload" then [payload] else [] }

/-- The members of the JSON object of an attachment: key, encoded value, and the value the
parser reads back. -/
def attachmentMembers (a : SlackAttachment) : List (String × List Char × Json) :=
  [ ("fallback", encodeString a.Fallback, Json.string a.Fallback),
    ("color", encodeString a.Color, Json.string a.Color),
    ("pretext", encodeString a.Pretext, Json.string a.Pretext),
    ("author_name", encodeString a.Author_name, Json.string a.Author_name),
    ("author_link", encodeString a.Author_link, Json.string a.Author_link),
    ("author_icon", encodeString a.Author_icon, Json.string a.Author_icon),
    ("title", encodeString a.Title, Json.string a.Title),
    ("title_link", encodeString a.Title_link, Json.string a.Title_link),
    ("text", encodeString a.Text, Json.string a.Text),
    ("image_url", encodeString a.Image_url, Json.string a.Image_url),
    ("thumb_url", encodeString a.Thumb_url, Json.string a.Thumb_url),
    ("footer", encodeString a.Footer, Json.string a.Footer),
    ("footer_icon", encodeString a.Footer_icon, Json.string a.Footer_icon),
    ("ts", encodeInt a.Ts, Json.number (String.mk (encodeInt a.Ts))) ]

/-- The JSON value of an attachment. -/
def attachmentJson (a : SlackAttachment) : Json :=
  Json.object ((attachmentMembers a).map fun m => (m.1, m.2.2))

/-- The members of the JSON object of a message with one attachment. -/
def messageMembers (s : SlackMessage) (a : SlackAttachment) : List (String × List Char × Json) :=
  [ ("username", encodeString s.Username, Json.string s.Username),
    ("attachments", encodeAttachments [a], Json.array [attachmentJson a]),
    ("Send", encodeString s.Send, Json.string s.Send) ]

/-- The text is read back by the value parser as the given value when a delimiter follows. -/
def ReadsBack (pv : List Char → Option (Json × List Char)) (txt : List Char) (v : Json) : Prop :=
  ∀ d rest, (d = ',' ∨ d = '}' ∨ d = ']') → pv (txt ++ d :: rest) = some (v, d :: rest)

/-! ## The parser reads back what Marshal writes -/

/-- The two hexadecimal digits written for an ASCII character are read back as its code. -/
theorem getu4_hexDigit : ∀ n, n < 128 →
    getu4 '0' '0' (hexDigit (n / 16)) (hexDigit (n % 16)) = some n := by
  decide

/-- The escapes of the two line separators are read back as their codes. -/
theorem getu4_hexDigit_line (n : Nat) (h : n = 8232 ∨ n = 8233) :
    getu4 '2' '0' '2' (hexDigit (n % 16)) = some n := by
  rcases h with h | h <;> subst h <;> decide

/-- A `\u` escape of a code unit that is not a surrogate is read as that character. -/
theorem escapeStep_u4 (h1 h2 h3 h4 : Char) (cs : List Char) (rr : Nat)
    (h : getu4 h1 h2 h3 h4 = some rr) (hs : isSurrogate rr = false) :
    escapeStep ('u' :: h1 :: h2 :: h3 :: h4 :: cs) = some (Char.ofNat rr, cs) := by
  simp [escapeStep, h, hs]

/-- A one-letter escape is read as the character it stands for. -/
theorem escapeStep_simple (e ch : Char) (cs : List Char)
    (he : e ≠ 'u') (h : unescape e = some ch) :
    escapeStep (e :: cs) = some (ch, cs) := by
  simp [escapeStep, he, h]

/-- What the decoder reads back from the escaped form of one character. -/
theorem parseStringBody_escapeChar (n : Nat) (c : Char) (cs : List Char) :
    parseStringBody (n + 1) (escapeChar c ++ cs) = pushChar c (parseStringBody n cs) := by
  simp only [escapeChar]
  split_ifs with h1 h2 h3 h4 h5 h6
  · have he : c ≠ 'u' := by rcases h1 with h | h <;> subst h <;> decide
    have hu : unescape c = some c := by rcases h1 with h | h <;> subst h <;> decide
    simp [parseStringBody, escapeStep_simple c c _ he hu]
  · subst h2
    simp [parseStringBody, escapeStep_simple 'n' '\n' _ (by decide) (by decide)]
  · subst h3
    simp [parseStringBody, escapeStep_simple 'r' '\r' _ (by decide) (by decide)]
  · subst h4
    simp [parseStringBody, escapeStep_simple 't' '\t' _ (by decide) (by decide)]
  · have hlt : c.toNat < 128 := by
      rcases h5 with h | h | h | h
      · omega
      · subst h; decide
      · subst h; decide
      · subst h; decide
    have hs : isSurrogate c.toNat = false := by
      simp [isSurrogate]; omega
    simp [parseStringBody, escapeStep_u4 _ _ _ _ _ _ (getu4_hexDigit _ hlt) hs, Char.ofNat_toNat]
  · have hs : isSurrogate c.toNat = false := by
      simp [isSurrogate]; omega
    simp [parseStringBody, escapeStep_u4 _ _ _ _ _ _ (getu4_hexDigit_line _ h6) hs,
      Char.ofNat_toNat]
  · have a1 : c ≠ '"' := by tauto
    have a2 : c ≠ '\\' := by tauto
    have a3 : ¬ c.toNat < 32 := by tauto
    simp [parseStringBody, a1, a2, a3]

/-- The decoder reads the escaped form of a string back as the string, given enough steps. -/
theorem parseStringBody_escapeChars (s rest : List Char) (n : Nat) (hn : s.length < n) :
    parseStringBody n (escapeChars s ++ '"' :: rest) = some (s, rest) := by
  induction s generalizing n with
  | nil =>
    obtain ⟨k, rfl⟩ : ∃ k, n = k + 1 := ⟨n - 1, by simp at hn; omega⟩
    simp [escapeChars, parseStringBody]
  | cons c s ih =>
    obtain ⟨k, rfl⟩ : ∃ k, n = k + 1 := ⟨n - 1, by simp at hn; omega⟩
    simp only [escapeChars, List.append_assoc]
    rw [parseStringBody_escapeChar, ih k (by simp at hn; omega)]
    simp [pushChar]

/-- Escaping does not shorten a string. -/
theorem length_escapeChars (s : List Char) : s.length ≤ (escapeChars s).length := by
  induction s with
  | nil => simp [escapeChars]
  | cons c s ih =>
    have : 1 ≤ (escapeChar c).length := by
      simp only [escapeChar]; split_ifs <;> simp
    simp [escapeChars]; omega

/-- The decoder reads the escaped form of a string back as the string. -/
theorem parseString_escapeChars (s rest : List Char) :
    parseString (escapeChars s ++ '"' :: rest) = some (s, rest) := by
  apply parseStringBody_escapeChars
  have := length_escapeChars s
  simp; omega


/-- Nothing is skipped in front of a character that is not white space. -/
theorem skipSpace_cons (c : Char) (cs : List Char) (h : isSpace c = false) :
    skipSpace (c :: cs) = c :: cs := by
  simp [skipSpace, h]

/-- An encoded string is read back as the string value. -/
theorem parseValue_encodeString (n : Nat) (s : String) (rest : List Char) :
    parseValue (n + 1) (encodeString s ++ rest) = some (Json.string s, rest) := by
  have h := parseString_escapeChars s.data rest
  simp [parseValue, encodeString, skipSpace, isSpace, h]

/-- An encoded string is read back when a delimiter follows. -/
theorem readsBack_encodeString (n : Nat) (s : String) :
    ReadsBack (parseValue (n + 1)) (encodeString s) (Json.string s) := by
  intro d rest _
  exact parseValue_encodeString n s (d :: rest)

/-- The number of the zero timestamp is read back when a delimiter follows. -/
theorem readsBack_zero (n : Nat) :
    ReadsBack (parseValue (n + 1)) (encodeInt 0) (Json.number "0") := by
  intro d rest hd
  rcases hd with h | h | h <;> subst h <;>
    simp [parseValue, encodeInt, skipSpace, isSpace, parseNumber, parseUnsigned, parseIntPart,
      parseFrac, parseExp, Nat.toDigits, Nat.toDigitsCore, Nat.digitChar]

/-- The members of an encoded object are read back, key by key, when each value is. -/
theorem parseMembers_encodeMembers (pv : List Char → Option (Json × List Char))
    (ms : List (String × List Char × Json)) (hne : ms ≠ [])
    (h : ∀ m ∈ ms, ReadsBack pv m.2.1 m.2.2) (k : Nat) (hk : ms.length ≤ k) (rest : List Char) :
    parseMembers pv k (encodeMembers (ms.map fun m => (m.1, m.2.1)) ++ '}' :: rest)
      = some (ms.map fun m => (m.1, m.2.2), rest) := by
  induction ms generalizing k with
  | nil => exact absurd rfl hne
  | cons m ms ih =>
    obtain ⟨j, rfl⟩ : ∃ j, k = j + 1 := ⟨k - 1, by simp at hk; omega⟩
    obtain ⟨key, txt, v⟩ := m
    have hm : ReadsBack pv txt v := h (key, txt, v) (by simp)
    cases ms with
    | nil =>
      have e1 := parseString_escapeChars key.data (':' :: (txt ++ '}' :: rest))
      have e2 := hm '}' rest (by simp)
      simp [encodeMembers, encodeString, parseMembers, skipSpace, isSpace, e1, e2]
    | cons m2 ms =>
      have ih2 := ih (by simp) (fun m hmem => h m (by simp [hmem])) j (by simp at hk ⊢; omega)
      have e1 := parseString_escapeChars key.data
        (':' :: (txt ++ ',' :: (encodeMembers ((m2 :: ms).map fun m => (m.1, m.2.1))
          ++ '}' :: rest)))
      have e2 := hm ',' (encodeMembers ((m2 :: ms).map fun m => (m.1, m.2.1)) ++ '}' :: rest)
        (by simp)
      simp only [List.map_cons] at ih2 e1 e2 ⊢
      simp [encodeMembers, encodeString, parseMembers, skipSpace, isSpace, e1, e2, ih2]

/-- The encoded members of a nonempty object start with the quote of the first key. -/
theorem encodeMembers_head (ms : List (String × List Char × Json)) (hne : ms ≠ []) :
    ∃ t, encodeMembers (ms.map fun m => (m.1, m.2.1)) = '"' :: t := by
  match ms, hne with
  | [m], _ => exact ⟨_, by simp [encodeMembers, encodeString]; rfl⟩
  | m :: m2 :: ms, _ => exact ⟨_, by simp [encodeMembers, encodeString]; rfl⟩

/-- An encoded nonempty object is read back when each of its values is. -/
theorem parseValue_encodeObject (n : Nat) (ms : List (String × List Char × Json)) (hne : ms ≠ [])
    (h : ∀ m ∈ ms, ReadsBack (parseValue n) m.2.1 m.2.2) (hk : ms.length ≤ n)
    (rest : List Char) :
    parseValue (n + 1) (encodeObject (ms.map fun m => (m.1, m.2.1)) ++ rest)
      = some (Json.object (ms.map fun m => (m.1, m.2.2)), rest) := by
  obtain ⟨t, ht⟩ := encodeMembers_head ms hne
  have pm := parseMembers_encodeMembers (parseValue n) ms hne h n hk rest
  rw [ht] at pm
  simp only [List.cons_append] at pm
  simp [parseValue, encodeObject, ht, skipSpace, isSpace, pm]

/-- The elements of an encoded array are read back when each element is. -/
theorem parseElements_encodeElements (pv : List Char → Option (Json × List Char))
    (es : List (List Char × Json)) (hne : es ≠ [])
    (h : ∀ e ∈ es, ReadsBack pv e.1 e.2) (k : Nat) (hk : es.length ≤ k) (rest : List Char) :
    parseElements pv k (encodeElements (es.map fun e => e.1) ++ ']' :: rest)
      = some (es.map fun e => e.2, rest) := by
  induction es generalizing k with
  | nil => exact absurd rfl hne
  | cons e es ih =>
    obtain ⟨j, rfl⟩ : ∃ j, k = j + 1 := ⟨k - 1, by simp at hk; omega⟩
    obtain ⟨txt, v⟩ := e
    have he : ReadsBack pv txt v := h (txt, v) (by simp)
    cases es with
    | nil =>
      have e2 := he ']' rest (by simp)
      simp [encodeElements, parseElements, skipSpace, isSpace, e2]
    | cons e2 es =>
      have ih2 := ih (by simp) (fun e hmem => h e (by simp [hmem])) j (by simp at hk ⊢; omega)
      have e3 := he ',' (encodeElements ((e2 :: es).map fun e => e.1) ++ ']' :: rest) (by simp)
      simp only [List.map_cons] at ih2 e3 ⊢
      simp [encodeElements, parseElements, skipSpace, isSpace, e3, ih2]

/-- The encoding of an attachment is the encoded object of its members. -/
theorem encodeAttachment_eq (a : SlackAttachment) :
    encodeAttachment a = encodeObject ((attachmentMembers a).map fun m => (m.1, m.2.1)) := rfl

/-- The encoding of an attachment with the zero timestamp is read back as its JSON value. -/
theorem parseValue_encodeAttachment (n : Nat) (a : SlackAttachment) (hts : a.Ts = 0)
    (rest : List Char) :
    parseValue (n + 16) (encodeAttachment a ++ rest) = some (attachmentJson a, rest) := by
  rw [encodeAttachment_eq]
  apply parseValue_encodeObject (n + 15) (attachmentMembers a)
  · simp [attachmentMembers]
  · intro m hm
    simp only [attachmentMembers, List.mem_cons, List.mem_singleton, List.not_mem_nil,
      or_false] at hm
    rcases hm with h | h | h | h | h | h | h | h | h | h | h | h | h | h <;> subst h
    all_goals first
      | exact readsBack_encodeString _ _
      | (simp only [hts]; exact readsBack_zero _)
  · simp [attachmentMembers]

/-- An encoded nonempty array of objects is read back when each element is. -/
theorem parseValue_encodeArray (n : Nat) (es : List (List Char × Json)) (hne : es ≠ [])
    (hhead : ∃ t, encodeElements (es.map fun e => e.1) = '{' :: t)
    (h : ∀ e ∈ es, ReadsBack (parseValue n) e.1 e.2) (hk : es.length ≤ n) (rest : List Char) :
    parseValue (n + 1) ('[' :: encodeElements (es.map fun e => e.1) ++ ']' :: rest)
      = some (Json.array (es.map fun e => e.2), rest) := by
  obtain ⟨t, ht⟩ := hhead
  have pe := parseElements_encodeElements (parseValue n) es hne h n hk rest
  rw [ht] at pe
  simp only [List.cons_append] at pe
  simp [parseValue, ht, skipSpace, isSpace, pe]

/-- The encoding of a one-attachment slice is read back as an array of one value. -/
theorem readsBack_encodeAttachments (n : Nat) (a : SlackAttachment) (hts : a.Ts = 0) :
    ReadsBack (parseValue (n + 17)) (encodeAttachments [a]) (Json.array [attachmentJson a]) := by
  intro d rest _
  have pa := parseValue_encodeArray (n + 16) [(encodeAttachment a, attachmentJson a)]
    (by simp) ⟨_, rfl⟩ (by
      intro e he
      simp only [List.mem_singleton] at he
      subst he
      intro d rest _
      exact parseValue_encodeAttachment n a hts (d :: rest)) (by simp) (d :: rest)
  simpa [encodeAttachments] using pa

/-- The document of a message with one attachment is the encoded object of its members. -/
theorem encodeMessage_eq (s : SlackMessage) (a : SlackAttachment) (h : s.Attachments = [a]) :
    (Marshal s).data = encodeObject ((messageMembers s a).map fun m => (m.1, m.2.1)) := by
  simp [Marshal, messageMembers, h]

/-- A document is at least as long as its fixed part. -/
theorem length_Marshal (s : SlackMessage) : 40 ≤ (Marshal s).length := by
  have h1 := length_escapeChars "username".data
  have h2 := length_escapeChars "attachments".data
  have h3 := length_escapeChars "Send".data
  simp only [String.length, List.length_cons, List.length_nil] at h1 h2 h3
  simp [Marshal, String.length, encodeObject, encodeMembers, encodeString]
  omega

/-- The document of a message with one attachment parses to the JSON value of the message. -/
theorem parseDocument_Marshal (s : SlackMessage) (a : SlackAttachment)
    (h : s.Attachments = [a]) (hts : a.Ts = 0) :
    parseDocument (Marshal s) = some (Json.object ((messageMembers s a).map fun m => (m.1, m.2.2))) := by
  obtain ⟨n, hn⟩ : ∃ n, (Marshal s).length + 1 = n + 20 :=
    ⟨(Marshal s).length - 19, by have := length_Marshal s; omega⟩
  have pv := parseValue_encodeObject (n + 19) (messageMembers s a) (by simp [messageMembers])
    (by
      intro m hm
      simp only [messageMembers, List.mem_cons, List.mem_singleton, List.not_mem_nil,
        or_false] at hm
      rcases hm with h | h | h <;> subst h
      · exact readsBack_encodeString _ _
      · exact readsBack_encodeAttachments (n + 2) a hts
      · exact readsBack_encodeString _ _)
    (by simp [messageMembers]) []
  rw [List.append_nil, ← encodeMessage_eq s a h] at pv
  simp [parseDocument, hn, pv, skipSpace]

/-- The encoding of zero. -/
theorem encodeInt_zero : encodeInt 0 = ['0'] := by
  decide

/-- The literal of zero converts to zero. -/
theorem parseInt32_zero : parseInt32 "0" = some 0 := by
  decide

/-- Decoding the JSON value of a message with one attachment gives the message. -/
theorem decodeMessage_messageMembers (s : SlackMessage) (a : SlackAttachment)
    (h : s.Attachments = [a]) (hts : a.Ts = 0) :
    decodeMessage {} (Json.object ((messageMembers s a).map fun m => (m.1, m.2.2)))
      = Except.ok s := by
  obtain ⟨u, as, snd⟩ := s
  obtain ⟨f1, f2, f3, f4, f5, f6, f7, f8, f9, f10, f11, f12, f13, ts⟩ := a
  simp only at h hts
  subst h hts
  simp [decodeMessage, messageMembers, decodeMembers, findField, messageFields, setMessageField,
    decodeString, decodeAttachments, decodeElements, decodeAttachment, attachmentJson,
    attachmentMembers, attachmentFields, setAttachmentField, decodeInt32, parseInt32_zero,
    encodeInt_zero, Except.map]

/-- Decoding the document of a message with one attachment, whose timestamp is zero, gives
the message back. -/
theorem Unmarshal_Marshal (s : SlackMessage) (a : SlackAttachment)
    (h : s.Attachments = [a]) (hts : a.Ts = 0) :
    Unmarshal (Marshal s) = Except.ok s := by
  simp [Unmarshal, parseDocument_Marshal s a h hts, decodeMessage_messageMembers s a h hts]

/-! ## Properties of createSlackMessage -/

/-- The switch gives each row of the table its verb and colour. -/
theorem eventSwitch_of_mem (env : Environ) (row : String × String × String)
    (hrow : row ∈ headlineTable) (title : String) :
    (eventSwitch env row.1 title).2 = (row.2.1 ++ title, row.2.2) := by
  simp only [headlineTable, List.mem_cons, List.mem_singleton, List.not_mem_nil, or_false] at hrow
  rcases hrow with h | h | h | h | h | h <;> subst h <;>
    simp [eventSwitch, play, pause, resume, stop, viewed, rated]

/-- The switch reads the toggle of each recognized action. -/
theorem eventSwitch_toggle (env : Environ) (row : String × String)
    (hrow : row ∈ toggleTable) (title : String) :
    (eventSwitch env row.1 title).1 = Getenv env row.2 := by
  simp only [toggleTable, List.mem_cons, List.mem_singleton, List.not_mem_nil, or_false] at hrow
  rcases hrow with h | h | h | h | h | h <;> subst h <;>
    simp [eventSwitch, play, pause, resume, stop, viewed, rated]

/-- The switch leaves the initial values for an action that is not recognized. -/
theorem eventSwitch_unrecognized (env : Environ) (event title : String)
    (h : event ∉ [play, pause, resume, stop, viewed, rated]) :
    eventSwitch env event title = ("false", "", "") := by
  simp only [List.mem_cons, List.mem_singleton, List.not_mem_nil, or_false, not_or] at h
  obtain ⟨h1, h2, h3, h4, h5, h6⟩ := h
  simp [eventSwitch, h1, h2, h3, h4, h5, h6]

/-- Claim C1. For an event whose action is one of the six rows of the table, the one
attachment of the composed notification has as headline the verb of the row followed by
the display title, and as colour the colour of the row. -/
theorem headline_color_table (env : Environ) (m : PlexMessage) (row : String × String × String)
    (hrow : row ∈ headlineTable) (hev : m.Event = row.1) :
    (createSlackMessage env m).Attachments.map (fun a => (a.Title, a.Color))
      = [(row.2.1 ++ displayTitle m, row.2.2)] := by
  have h := eventSwitch_of_mem env row hrow (displayTitle m)
  simp [createSlackMessage, hev, h]

theorem headline_color_table_witness :
    (("media.play", "Started watching ", "good") ∈ headlineTable
      ∧ pilotMessage.Event = "media.play"
      ∧ (createSlackMessage (environOf [("SEND_PLAY", "true")]) pilotMessage).Attachments.map
          (fun a => (a.Title, a.Color))
        = [("Started watching Pilot from Season 1 of Show X", "good")])
    ∧ (("media.rate", "Rated ", "#439FE0") ∈ headlineTable
      ∧ movieMessage.Event = "media.rate"
      ∧ (createSlackMessage (environOf []) movieMessage).Attachments.map
          (fun a => (a.Title, a.Color))
        = [("Rated Movie Y", "#439FE0")]) :=
  ⟨⟨by decide, rfl,
      (headline_color_table (environOf [("SEND_PLAY", "true")]) pilotMessage
        ("media.play", "Started watching ", "good") (by decide) rfl).trans (by decide)⟩,
   ⟨by decide, rfl,
      (headline_color_table (environOf []) movieMessage
        ("media.rate", "Rated ", "#439FE0") (by decide) rfl).trans (by decide)⟩⟩

/-- Claim C2. The title inserted after the verb of the headline is
`T from P of G` when the media kind is exactly `episode`, and the raw title `T` for
every other media kind, the empty kind included. -/
theorem display_title_rule (env : Environ) (m : PlexMessage) (row : String × String × String)
    (hrow : row ∈ headlineTable) (hev : m.Event = row.1) :
    (m.Metadata.MediaType = "episode" →
      (createSlackMessage env m).Attachments.map (fun a => a.Title)
        = [row.2.1 ++ (m.Metadata.Title ++ " from " ++ m.Metadata.ParentTitle ++ " of "
            ++ m.Metadata.GrandparentTitle)])
    ∧ (m.Metadata.MediaType ≠ "episode" →
      (createSlackMessage env m).Attachments.map (fun a => a.Title)
        = [row.2.1 ++ m.Metadata.Title]) := by
  constructor
  · intro hk
    have hd : displayTitle m = m.Metadata.Title ++ " from " ++ m.Metadata.ParentTitle ++ " of "
        ++ m.Metadata.GrandparentTitle := by
      simp [displayTitle, hk]
    have h := eventSwitch_of_mem env row hrow (displayTitle m)
    rw [hd] at h
    simp [createSlackMessage, hev, hd, h]
  · intro hk
    have hd : displayTitle m = m.Metadata.Title := by
      simp [displayTitle, hk]
    have h := eventSwitch_of_mem env row hrow (displayTitle m)
    rw [hd] at h
    simp [createSlackMessage, hev, hd, h]

theorem display_title_rule_witness :
    (("media.play", "Started watching ", "good") ∈ headlineTable
      ∧ pilotMessage.Event = "media.play"
      ∧ pilotMessage.Metadata.MediaType = "episode"
      ∧ (createSlackMessage (environOf []) pilotMessage).Attachments.map (fun a => a.Title)
        = ["Started watching Pilot from Season 1 of Show X"])
    ∧ (("media.rate", "Rated ", "#439FE0") ∈ headlineTable
      ∧ movieMessage.Event = "media.rate"
      ∧ movieMessage.Metadata.MediaType ≠ "episode"
      ∧ (createSlackMessage (environOf []) movieMessage).Attachments.map (fun a => a.Title)
        = ["Rated Movie Y"])
    ∧ (("media.stop", "Stopped watching ", "danger") ∈ headlineTable
      ∧ (createSlackMessage (environOf [])
            { Event := "media.stop", Metadata := { Title := "Clip" } }).Attachments.map
          (fun a => a.Title)
        = ["Stopped watching Clip"]) :=
  ⟨⟨by decide, rfl, rfl,
      ((display_title_rule (environOf []) pilotMessage
        ("media.play", "Started watching ", "good") (by decide) rfl).1 rfl).trans (by decide)⟩,
   ⟨by decide, rfl, by decide,
      ((display_title_rule (environOf []) movieMessage
        ("media.rate", "Rated ", "#439FE0") (by decide) rfl).2 (by decide)).trans (by decide)⟩,
   ⟨by decide,
      ((display_title_rule (environOf []) { Event := "media.stop", Metadata := { Title := "Clip" } }
        ("media.stop", "Stopped watching ", "danger") (by decide) rfl).2 (by decide)).trans
        (by decide)⟩⟩

/-- Claim C4. Whatever the action, the attachment carries the account display name, the
account avatar, the media summary, the footer `Played from <section> on <player>` and
the fixed fallback text; so changing only the action string (and the environment) of an
event leaves these five fields as they are. -/
theorem action_independent_fields (env : Environ) (m : PlexMessage) :
    (createSlackMessage env m).Attachments.map
        (fun a => (a.Author_name, a.Author_icon, a.Text, a.Footer, a.Fallback))
      = [(m.Account.Title, m.Account.Thumb, m.Metadata.Summary,
          "Played from " ++ m.Metadata.LibrarySectionTitle ++ " on " ++ m.Player.Title,
          "Fallback message")]
    ∧ ∀ (env2 : Environ) (event : String),
        (createSlackMessage env2 { m with Event := event }).Attachments.map
            (fun a => (a.Author_name, a.Author_icon, a.Text, a.Footer, a.Fallback))
          = (createSlackMessage env m).Attachments.map
            (fun a => (a.Author_name, a.Author_icon, a.Text, a.Footer, a.Fallback)) := by
  constructor
  · simp [createSlackMessage]
  · intro env2 event
    simp [createSlackMessage]

/-- Claim C5. For an action outside the six recognized identifiers the composer returns
a notification, whatever the environment: its attachment has an empty headline and an
empty colour next to the fields every attachment has, and its delivery flag is the
text `false`. -/
theorem unrecognized_action (env : Environ) (m : PlexMessage)
    (h : m.Event ∉ [play, pause, resume, stop, viewed, rated]) :
    createSlackMessage env m =
      { Username := "Plex"
        Attachments :=
          [{ Fallback := "Fallback message", Color := "", Title := ""
             Author_name := m.Account.Title, Author_icon := m.Account.Thumb
             Text := m.Metadata.Summary
             Footer := "Played from " ++ m.Metadata.LibrarySectionTitle ++ " on "
               ++ m.Player.Title }]
        Send := "false" } := by
  simp [createSlackMessage, eventSwitch_unrecognized env m.Event _ h]

theorem unrecognized_action_witness :
    seekMessage.Event ∉ [play, pause, resume, stop, viewed, rated]
      ∧ createSlackMessage (environOf [("SEND_PLAY", "true"), ("SEND_RATED", "true")]) seekMessage =
        { Username := "Plex"
          Attachments :=
            [{ Fallback := "Fallback message", Color := "", Title := ""
               Footer := "Played from  on " }]
          Send := "false" } :=
  ⟨by decide,
    (unrecognized_action (environOf [("SEND_PLAY", "true"), ("SEND_RATED", "true")]) seekMessage
      (by decide)).trans (by decide)⟩

/-- Claim C6. Every composed notification has exactly one attachment and the sender
display name `Plex`. -/
theorem one_attachment (env : Environ) (m : PlexMessage) :
    (createSlackMessage env m).Attachments.length = 1
      ∧ (createSlackMessage env m).Username = "Plex" := by
  simp [createSlackMessage]

/-! ## Properties of the JSON form of the notification -/

set_option maxRecDepth 100000 in
/-- The document written for the notification of scenario 1. -/
theorem marshal_example :
    Marshal (createSlackMessage (environOf [("SEND_PLAY", "true")]) pilotMessage) =
      "\x7b\"username\":\"Plex\",\"attachments\":[\x7b\"fallback\":\"Fallback message\",\"color\":\"good\",\"pretext\":\"\",\"author_name\":\"\",\"author_link\":\"\",\"author_icon\":\"\",\"title\":\"Started watching Pilot from Season 1 of Show X\",\"title_link\":\"\",\"text\":\"\",\"image_url\":\"\",\"thumb_url\":\"\",\"footer\":\"Played from  on \",\"footer_icon\":\"\",\"ts\":0\x7d],\"Send\":\"true\"\x7d" := by
  decide

/-- The escaped form of a text with a quote, a line break, markup and an ampersand. -/
theorem escape_example :
    String.mk (encodeString "a \"b\"\n<c> & d")
      = "\"a \\\"b\\\"\\n\\u003cc\\u003e \\u0026 d\"" := by
  decide

/-- Claim C9. Decoding the JSON document that `json.Marshal` writes for a composed
notification gives back the composed notification: the attachment, field for field,
together with the sender name and the delivery flag. -/
theorem marshal_roundtrip (env : Environ) (m : PlexMessage) :
    Unmarshal (Marshal (createSlackMessage env m)) = Except.ok (createSlackMessage env m) :=
  Unmarshal_Marshal _ _ rfl rfl

/-! ## Properties of handlePlexMessage -/

/-- The delivery flag of a recognized action is the value of its toggle. -/
theorem send_mirrors_toggle (env : Environ) (m : PlexMessage) (row : String × String)
    (hrow : row ∈ toggleTable) (hev : m.Event = row.1) :
    (createSlackMessage env m).Send = Getenv env row.2 := by
  simp [createSlackMessage, hev, eventSwitch_toggle env row hrow]

/-- The delivery flag of an unrecognized action is `false`, whatever the environment. -/
theorem send_unrecognized (env : Environ) (m : PlexMessage)
    (h : m.Event ∉ [play, pause, resume, stop, viewed, rated]) :
    (createSlackMessage env m).Send = "false" := by
  simp [createSlackMessage, eventSwitch_unrecognized env m.Event _ h]

/-- The delivery flag depends on the action string and the environment only. -/
theorem send_depends_on_action (env : Environ) (m1 m2 : PlexMessage)
    (h : m1.Event = m2.Event) :
    (createSlackMessage env m1).Send = (createSlackMessage env m2).Send := by
  simp only [createSlackMessage, eventSwitch, h]
  split_ifs <;> rfl

/-- A handler run whose payload decodes makes no outbound call unless the delivery flag
is `true`. -/
theorem no_outbound_of_flag_off (w : World) (r : Request) (form : String → List String)
    (payload : String) (others : List String) (m : PlexMessage)
    (hform : r.MultipartForm = some form) (hp : form "payload" = payload :: others)
    (hdec : w.UnmarshalPayload payload = Except.ok m)
    (hoff : (createSlackMessage w.environ m).Send ≠ "true") :
    outboundCalls (handlePlexMessage w r) = [] := by
  simp only [handlePlexMessage, hform, hp, hdec]
  cases hreq : w.NewRequestError "POST" (Getenv w.environ "SLACK_URL") with
  | some e => simp [outboundCalls]
  | none => simp [hoff, outboundCalls]

/-- When `http.NewRequest` accepts the configured URL, a handler run whose payload
decodes makes one outbound call carrying the serialized notification if the delivery
flag is `true`, and none otherwise. -/
theorem outbound_of_accepted_url (w : World) (r : Request) (form : String → List String)
    (payload : String) (others : List String) (m : PlexMessage)
    (hform : r.MultipartForm = some form) (hp : form "payload" = payload :: others)
    (hdec : w.UnmarshalPayload payload = Except.ok m)
    (hreq : w.NewRequestError "POST" (Getenv w.environ "SLACK_URL") = none) :
    outboundCalls (handlePlexMessage w r) =
      if (createSlackMessage w.environ m).Send = "true" then
        [{ Method := "POST", URL := Getenv w.environ "SLACK_URL",
           Header := [("Content-Type", "application/json")],
           Body := Marshal (createSlackMessage w.environ m) }]
      else [] := by
  simp only [handlePlexMessage, hform, hp, hdec, hreq]
  by_cases hs : (createSlackMessage w.environ m).Send = "true"
  · simp only [hs, if_true]
    cases w.ClientDo _ <;> simp [outboundCalls]
  · simp [hs, outboundCalls]

/-- When `http.NewRequest` accepts the configured URL and the delivery flag is not
`true`, the handler returns normally. -/
theorem skipped_of_accepted_url (w : World) (r : Request) (form : String → List String)
    (payload : String) (others : List String) (m : PlexMessage)
    (hform : r.MultipartForm = some form) (hp : form "payload" = payload :: others)
    (hdec : w.UnmarshalPayload payload = Except.ok m)
    (hreq : w.NewRequestError "POST" (Getenv w.environ "SLACK_URL") = none)
    (hoff : (createSlackMessage w.environ m).Send ≠ "true") :
    (handlePlexMessage w r).failure = none := by
  simp [handlePlexMessage, hform, hp, hdec, hreq, hoff]

/-- When `http.NewRequest` rejects the configured URL, a handler run whose payload
decodes panics on the nil request before it looks at the delivery flag. -/
theorem panics_of_rejected_url (w : World) (r : Request) (form : String → List String)
    (payload : String) (others : List String) (m : PlexMessage) (e : String)
    (hform : r.MultipartForm = some form) (hp : form "payload" = payload :: others)
    (hdec : w.UnmarshalPayload payload = Except.ok m)
    (hreq : w.NewRequestError "POST" (Getenv w.environ "SLACK_URL") = some e) :
    (handlePlexMessage w r).failure = some Failure.nilDereference
      ∧ outboundCalls (handlePlexMessage w r) = [] := by
  simp [handlePlexMessage, hform, hp, hdec, hreq, outboundCalls]

/-- Claim C8. When the payload of the request cannot be decoded, the handler logs the
payload and the decode error and panics with that error: nothing is composed, printed
or sent. -/
theorem decode_error_stops (w : World) (r : Request) (form : String → List String)
    (payload : String) (others : List String) (err : String)
    (hform : r.MultipartForm = some form) (hp : form "payload" = payload :: others)
    (hdec : w.UnmarshalPayload payload = Except.error err) :
    handlePlexMessage w r =
        { effects := [Effect.logged payload, Effect.logged ("Covert error: " ++ err)]
          failure := some (Failure.decodeError err) }
      ∧ outboundCalls (handlePlexMessage w r) = [] := by
  simp [handlePlexMessage, hform, hp, hdec, outboundCalls]

theorem decode_error_stops_witness :
    (sampleWorld [("SEND_PLAY", "true"), ("SLACK_URL", "https://hooks.slack.com/services/T/B/X")]).UnmarshalPayload
        "not json" = Except.error "invalid character 'o' in literal null (expecting 'u')"
      ∧ (handlePlexMessage
          (sampleWorld [("SEND_PLAY", "true"), ("SLACK_URL", "https://hooks.slack.com/services/T/B/X")])
          (requestWith "not json")).failure
        = some (Failure.decodeError "invalid character 'o' in literal null (expecting 'u')")
      ∧ outboundCalls (handlePlexMessage
          (sampleWorld [("SEND_PLAY", "true"), ("SLACK_URL", "https://hooks.slack.com/services/T/B/X")])
          (requestWith "not json")) = [] :=
  ⟨rfl,
    congrArg Outcome.failure
      (decode_error_stops
        (sampleWorld [("SEND_PLAY", "true"), ("SLACK_URL", "https://hooks.slack.com/services/T/B/X")])
        (requestWith "not json") _ "not json" [] _ rfl rfl rfl).1,
    (decode_error_stops
        (sampleWorld [("SEND_PLAY", "true"), ("SLACK_URL", "https://hooks.slack.com/services/T/B/X")])
        (requestWith "not json") _ "not json" [] _ rfl rfl rfl).2⟩

/-- A recognized action whose toggle is not set in the environment is not dispatched. -/
theorem no_outbound_of_missing_toggle (w : World) (r : Request) (form : String → List String)
    (payload : String) (others : List String) (m : PlexMessage) (row : String × String)
    (hform : r.MultipartForm = some form) (hp : form "payload" = payload :: others)
    (hdec : w.UnmarshalPayload payload = Except.ok m)
    (hrow : row ∈ toggleTable) (hev : m.Event = row.1) (hnone : w.environ row.2 = none) :
    outboundCalls (handlePlexMessage w r) = [] := by
  apply no_outbound_of_flag_off w r form payload others m hform hp hdec
  rw [send_mirrors_toggle w.environ m row hrow hev]
  simp [Getenv, hnone]

/-- Claim C3, as stated, fails. With `SEND_PLAY=true` and `SLACK_URL=:` the toggle of a
play event is enabled and the delivery flag is `true`, yet the handler makes no outbound
call: `http.NewRequest` returns no request for this URL. -/
theorem enabled_toggle_without_dispatch :
    Getenv (sampleWorld [("SEND_PLAY", "true"), ("SLACK_URL", ":")]).environ "SEND_PLAY" = "true"
      ∧ (sampleWorld [("SEND_PLAY", "true"), ("SLACK_URL", ":")]).UnmarshalPayload
          "\x7b\"event\":\"media.play\"\x7d" = Except.ok { Event := "media.play" }
      ∧ (createSlackMessage (sampleWorld [("SEND_PLAY", "true"), ("SLACK_URL", ":")]).environ
          { Event := "media.play" }).Send = "true"
      ∧ outboundCalls (handlePlexMessage (sampleWorld [("SEND_PLAY", "true"), ("SLACK_URL", ":")])
          (requestWith "\x7b\"event\":\"media.play\"\x7d")) = []
      ∧ ¬ (outboundCalls (handlePlexMessage (sampleWorld [("SEND_PLAY", "true"), ("SLACK_URL", ":")])
            (requestWith "\x7b\"event\":\"media.play\"\x7d")) ≠ []
          ↔ Getenv (sampleWorld [("SEND_PLAY", "true"), ("SLACK_URL", ":")]).environ "SEND_PLAY"
            = "true") :=
  ⟨by decide, rfl, by decide, by decide, by decide⟩

/-- Claim C3, as amended. For a request whose payload decodes: when the action is
recognized, the delivery flag is the value of its toggle, an outbound call is made only
if that value is `true`, one outbound call carrying the serialized notification is made
if it is `true` and `http.NewRequest` accepts the configured URL, and none is made when
the toggle is not set; when the action is not recognized, the delivery flag is `false`
and no outbound call is made, whatever the environment. -/
theorem dispatch_iff_toggle (w : World) (r : Request) (form : String → List String)
    (payload : String) (others : List String) (m : PlexMessage)
    (hform : r.MultipartForm = some form) (hp : form "payload" = payload :: others)
    (hdec : w.UnmarshalPayload payload = Except.ok m) :
    (∀ row ∈ toggleTable, m.Event = row.1 →
        (createSlackMessage w.environ m).Send = Getenv w.environ row.2
        ∧ (outboundCalls (handlePlexMessage w r) ≠ [] → Getenv w.environ row.2 = "true")
        ∧ (w.NewRequestError "POST" (Getenv w.environ "SLACK_URL") = none →
            (outboundCalls (handlePlexMessage w r) ≠ [] ↔ Getenv w.environ row.2 = "true"))
        ∧ (w.NewRequestError "POST" (Getenv w.environ "SLACK_URL") = none →
            Getenv w.environ row.2 = "true" →
            outboundCalls (handlePlexMessage w r) =
              [{ Method := "POST", URL := Getenv w.environ "SLACK_URL",
                 Header := [("Content-Type", "application/json")],
                 Body := Marshal (createSlackMessage w.environ m) }])
        ∧ (w.environ row.2 = none → outboundCalls (handlePlexMessage w r) = []))
    ∧ (m.Event ∉ [play, pause, resume, stop, viewed, rated] →
        (createSlackMessage w.environ m).Send = "false"
        ∧ outboundCalls (handlePlexMessage w r) = []) := by
  constructor
  · intro row hrow hev
    have hsend := send_mirrors_toggle w.environ m row hrow hev
    refine ⟨hsend, ?_, ?_, ?_, ?_⟩
    · intro hcalls
      by_contra hne
      exact hcalls (no_outbound_of_flag_off w r form payload others m hform hp hdec
        (by rw [hsend]; exact hne))
    · intro hreq
      rw [outbound_of_accepted_url w r form payload others m hform hp hdec hreq, hsend]
      by_cases ht : Getenv w.environ row.2 = "true" <;> simp [ht]
    · intro hreq htrue
      rw [outbound_of_accepted_url w r form payload others m hform hp hdec hreq, hsend, htrue]
      simp
    · intro hnone
      exact no_outbound_of_missing_toggle w r form payload others m row hform hp hdec hrow hev
        hnone
  · intro hun
    have hsend := send_unrecognized w.environ m hun
    refine ⟨hsend, ?_⟩
    apply no_outbound_of_flag_off w r form payload others m hform hp hdec
    rw [hsend]
    decide

theorem dispatch_iff_toggle_witness :
    (requestWith "\x7b\"event\":\"media.play\"\x7d").MultipartForm
        = some (fun field => if field = "payload" then ["\x7b\"event\":\"media.play\"\x7d"] else [])
      ∧ (sampleWorld [("SEND_PLAY", "true"),
            ("SLACK_URL", "https://hooks.slack.com/services/T/B/X")]).UnmarshalPayload
          "\x7b\"event\":\"media.play\"\x7d" = Except.ok { Event := "media.play" }
      ∧ ("media.play", "SEND_PLAY") ∈ toggleTable
      ∧ (sampleWorld [("SEND_PLAY", "true"),
            ("SLACK_URL", "https://hooks.slack.com/services/T/B/X")]).NewRequestError "POST"
          "https://hooks.slack.com/services/T/B/X" = none
      ∧ outboundCalls (handlePlexMessage
          (sampleWorld [("SEND_PLAY", "true"),
            ("SLACK_URL", "https://hooks.slack.com/services/T/B/X")])
          (requestWith "\x7b\"event\":\"media.play\"\x7d"))
        = [{ Method := "POST", URL := "https://hooks.slack.com/services/T/B/X",
             Header := [("Content-Type", "application/json")],
             Body := Marshal (createSlackMessage
               (environOf [("SEND_PLAY", "true"),
                 ("SLACK_URL", "https://hooks.slack.com/services/T/B/X")])
               { Event := "media.play" }) }]
      ∧ outboundCalls (handlePlexMessage (sampleWorld [("SLACK_URL", "https://hooks.slack.com/services/T/B/X")])
          (requestWith "\x7b\"event\":\"media.play\"\x7d")) = [] :=
  ⟨rfl, rfl, by decide, by decide,
    ((dispatch_iff_toggle
        (sampleWorld [("SEND_PLAY", "true"),
          ("SLACK_URL", "https://hooks.slack.com/services/T/B/X")])
        (requestWith "\x7b\"event\":\"media.play\"\x7d") _
        "\x7b\"event\":\"media.play\"\x7d" [] { Event := "media.play" } rfl rfl rfl).1
      ("media.play", "SEND_PLAY") (by decide) rfl).2.2.2.1 (by decide) (by decide),
    ((dispatch_iff_toggle
        (sampleWorld [("SLACK_URL", "https://hooks.slack.com/services/T/B/X")])
        (requestWith "\x7b\"event\":\"media.play\"\x7d") _
        "\x7b\"event\":\"media.play\"\x7d" [] { Event := "media.play" } rfl rfl rfl).1
      ("media.play", "SEND_PLAY") (by decide) rfl).2.2.2.2 (by decide)⟩

/-- Claim C7, at a failing input. With `SEND_PAUSE=false` and `SLACK_URL=:` a pause
event is not sent, and the handler does not return normally: it panics on the nil
request that `http.NewRequest` returned. -/
theorem skipped_request_panics :
    (sampleWorld [("SEND_PAUSE", "false"), ("SLACK_URL", ":")]).UnmarshalPayload
        "\x7b\"event\":\"media.pause\"\x7d" = Except.ok { Event := "media.pause" }
      ∧ (createSlackMessage (sampleWorld [("SEND_PAUSE", "false"), ("SLACK_URL", ":")]).environ
          { Event := "media.pause" }).Send = "false"
      ∧ outboundCalls (handlePlexMessage (sampleWorld [("SEND_PAUSE", "false"), ("SLACK_URL", ":")])
          (requestWith "\x7b\"event\":\"media.pause\"\x7d")) = []
      ∧ (handlePlexMessage (sampleWorld [("SEND_PAUSE", "false"), ("SLACK_URL", ":")])
          (requestWith "\x7b\"event\":\"media.pause\"\x7d")).failure
        = some Failure.nilDereference :=
  ⟨rfl, by decide, by decide, by decide⟩

/-- Claim C10, as stated, fails. With `SEND_RATED` set to the exact text `true` and
`SLACK_URL=:` a rate event is not dispatched. -/
theorem exact_true_without_dispatch :
    Getenv (sampleWorld [("SEND_RATED", "true"), ("SLACK_URL", ":")]).environ "SEND_RATED" = "true"
      ∧ (sampleWorld [("SEND_RATED", "true"), ("SLACK_URL", ":")]).UnmarshalPayload
          "\x7b\"event\":\"media.rate\"\x7d" = Except.ok { Event := "media.rate" }
      ∧ outboundCalls (handlePlexMessage (sampleWorld [("SEND_RATED", "true"), ("SLACK_URL", ":")])
          (requestWith "\x7b\"event\":\"media.rate\"\x7d")) = []
      ∧ ¬ (outboundCalls (handlePlexMessage (sampleWorld [("SEND_RATED", "true"), ("SLACK_URL", ":")])
            (requestWith "\x7b\"event\":\"media.rate\"\x7d")) ≠ []
          ↔ Getenv (sampleWorld [("SEND_RATED", "true"), ("SLACK_URL", ":")]).environ "SEND_RATED"
            = "true") :=
  ⟨by decide, rfl, by decide, by decide⟩

/-- Claim C10, as amended. For a request whose payload decodes: when the action is
recognized and `http.NewRequest` accepts the configured URL, an outbound call is made
exactly when the value of the toggle of the action is the text `true`; whatever the
URL, no outbound call is made for any other value, such as the empty text, `TRUE`,
`True`, `1`, `yes` or ` true`. And for every environment, any two events with the same
action string, recognized or not, get the same delivery flag whatever the rest of them
is, and in the same world the handler makes an outbound call for both or for neither. -/
theorem gate_exact_comparison (w : World) (r : Request) (form : String → List String)
    (payload : String) (others : List String) (m : PlexMessage)
    (hform : r.MultipartForm = some form) (hp : form "payload" = payload :: others)
    (hdec : w.UnmarshalPayload payload = Except.ok m) :
    (∀ row ∈ toggleTable, m.Event = row.1 →
        (w.NewRequestError "POST" (Getenv w.environ "SLACK_URL") = none →
          (outboundCalls (handlePlexMessage w r) ≠ [] ↔ Getenv w.environ row.2 = "true"))
        ∧ (Getenv w.environ row.2 ≠ "true" → outboundCalls (handlePlexMessage w r) = [])
        ∧ (∀ v ∈ ["", "TRUE", "True", "1", "yes", " true"],
            Getenv w.environ row.2 = v → outboundCalls (handlePlexMessage w r) = []))
    ∧ (∀ (env : Environ) (m1 m2 : PlexMessage), m1.Event = m2.Event →
        (createSlackMessage env m1).Send = (createSlackMessage env m2).Send)
    ∧ (∀ (r2 : Request) (form2 : String → List String) (payload2 : String)
        (others2 : List String) (m2 : PlexMessage),
        r2.MultipartForm = some form2 → form2 "payload" = payload2 :: others2 →
        w.UnmarshalPayload payload2 = Except.ok m2 → m2.Event = m.Event →
        (outboundCalls (handlePlexMessage w r2) = []
          ↔ outboundCalls (handlePlexMessage w r) = [])) := by
  refine ⟨?_, ?_, ?_⟩
  · intro row hrow hev
    have hsend := send_mirrors_toggle w.environ m row hrow hev
    have hoff : Getenv w.environ row.2 ≠ "true" →
        outboundCalls (handlePlexMessage w r) = [] := by
      intro hne
      exact no_outbound_of_flag_off w r form payload others m hform hp hdec
        (by rw [hsend]; exact hne)
    refine ⟨?_, hoff, ?_⟩
    · intro hreq
      rw [outbound_of_accepted_url w r form payload others m hform hp hdec hreq, hsend]
      by_cases ht : Getenv w.environ row.2 = "true" <;> simp [ht]
    · intro v hv hval
      apply hoff
      rw [hval]
      simp only [List.mem_cons, List.mem_singleton, List.not_mem_nil, or_false] at hv
      rcases hv with h | h | h | h | h | h <;> subst h <;> decide
  · intro env m1 m2 h12
    exact send_depends_on_action env m1 m2 h12
  · intro r2 form2 payload2 others2 m2 hform2 hp2 hdec2 hev2
    have hflag := send_depends_on_action w.environ m2 m hev2
    cases hreq : w.NewRequestError "POST" (Getenv w.environ "SLACK_URL") with
    | some e =>
      rw [(panics_of_rejected_url w r2 form2 payload2 others2 m2 e hform2 hp2 hdec2 hreq).2,
        (panics_of_rejected_url w r form payload others m e hform hp hdec hreq).2]
    | none =>
      rw [outbound_of_accepted_url w r2 form2 payload2 others2 m2 hform2 hp2 hdec2 hreq,
        outbound_of_accepted_url w r form payload others m hform hp hdec hreq, hflag]
      by_cases ht : (createSlackMessage w.environ m).Send = "true" <;> simp [ht]

theorem gate_exact_comparison_witness :
    (sampleWorld [("SEND_RATED", "TRUE"), ("SLACK_URL", "https://hooks.slack.com/services/T/B/X")]).UnmarshalPayload
        "\x7b\"event\":\"media.rate\"\x7d" = Except.ok { Event := "media.rate" }
      ∧ ("media.rate", "SEND_RATED") ∈ toggleTable
      ∧ Getenv (sampleWorld [("SEND_RATED", "TRUE"),
          ("SLACK_URL", "https://hooks.slack.com/services/T/B/X")]).environ "SEND_RATED" = "TRUE"
      ∧ outboundCalls (handlePlexMessage
          (sampleWorld [("SEND_RATED", "TRUE"),
            ("SLACK_URL", "https://hooks.slack.com/services/T/B/X")])
          (requestWith "\x7b\"event\":\"media.rate\"\x7d")) = []
      ∧ (outboundCalls (handlePlexMessage
            (sampleWorld [("SEND_RATED", "true"),
              ("SLACK_URL", "https://hooks.slack.com/services/T/B/X")])
            (requestWith "\x7b\"event\":\"media.rate\"\x7d")) ≠ []
          ↔ Getenv (sampleWorld [("SEND_RATED", "true"),
              ("SLACK_URL", "https://hooks.slack.com/services/T/B/X")]).environ "SEND_RATED"
            = "true")
      ∧ (createSlackMessage (environOf [("SEND_RATED", "true")]) seekMessage).Send
          = (createSlackMessage (environOf [("SEND_RATED", "true")])
              { Event := "media.seek", Account := { Title := "ann" },
                Metadata := { MediaType := "episode", Title := "Pilot" } }).Send
      ∧ (createSlackMessage (environOf [("SEND_RATED", "true")]) movieMessage).Send
          = (createSlackMessage (environOf [("SEND_RATED", "true")])
              { Event := "media.rate", Player := { Title := "tv" } }).Send :=
  ⟨rfl, by decide, by decide,
    ((gate_exact_comparison
        (sampleWorld [("SEND_RATED", "TRUE"),
          ("SLACK_URL", "https://hooks.slack.com/services/T/B/X")])
        (requestWith "\x7b\"event\":\"media.rate\"\x7d") _
        "\x7b\"event\":\"media.rate\"\x7d" [] { Event := "media.rate" } rfl rfl rfl).1
      ("media.rate", "SEND_RATED") (by decide) rfl).2.2 "TRUE" (by decide) (by decide),
    ((gate_exact_comparison
        (sampleWorld [("SEND_RATED", "true"),
          ("SLACK_URL", "https://hooks.slack.com/services/T/B/X")])
        (requestWith "\x7b\"event\":\"media.rate\"\x7d") _
        "\x7b\"event\":\"media.rate\"\x7d" [] { Event := "media.rate" } rfl rfl rfl).1
      ("media.rate", "SEND_RATED") (by decide) rfl).1 (by decide),
    (gate_exact_comparison
        (sampleWorld [("SEND_RATED", "true"),
          ("SLACK_URL", "https://hooks.slack.com/services/T/B/X")])
        (requestWith "\x7b\"event\":\"media.rate\"\x7d") _
        "\x7b\"event\":\"media.rate\"\x7d" [] { Event := "media.rate" } rfl rfl rfl).2.1
      (environOf [("SEND_RATED", "true")]) seekMessage _ rfl,
    (gate_exact_comparison
        (sampleWorld [("SEND_RATED", "true"),
          ("SLACK_URL", "https://hooks.slack.com/services/T/B/X")])
        (requestWith "\x7b\"event\":\"media.rate\"\x7d") _
        "\x7b\"event\":\"media.rate\"\x7d" [] { Event := "media.rate" } rfl rfl rfl).2.1
      (environOf [("SEND_RATED", "true")]) movieMessage _ rfl⟩

end PlexToSlack
